import Mathlib

/-!
Shallow embedding of the candidate-leaderboard core of this repository:
`Backend/Ranking.py` (sorting, rank assignment, batch summary) and
`Backend/app.py` (the per-resume processing helper `_process_single_resume`
and the `/api/leaderboard` route).

Python dicts with a fixed key set are modelled as structures whose optional
keys are `Option` fields; the `metrics` and `skills` sub-dicts are modelled
as association lists (every read of them in the embedded code goes through
`.get(key, default)`, so a missing whole dict is observationally the empty
dict).  Python floats are modelled as exact rationals `Rat`; machine floats
only enter through scores and averages, where the code does ordinary
arithmetic and a 4-decimal rounding.
-/

namespace ResumeRank

/-- One processed candidate record (a Python dict produced by
`_process_single_resume` in `app.py`, consumed by `Ranking.py`).
Fields read via `.get` with a default, or absent before some phase
(`rank`, `error`), are `Option`s. -/
structure Candidate where
  name : Option String
  score : Option Rat
  weighted_sum : Option Rat
  net_skills : Option Int
  metrics : List (String × Int)
  skills : List (String × List String)
  recruiter_note : Option String
  error : Option String
  rank : Option Nat
deriving DecidableEq, Repr

/-- Python `c.get("score", 0.0)` (`Ranking.py` line 33 and 62). -/
def getScore (c : Candidate) : Rat := c.score.getD 0

/-- Python `str.lower()` restricted to its ASCII case mapping, applied
characterwise to the string data (names in this system are ASCII display
strings). -/
def pyLower (s : String) : String := ⟨s.data.map Char.toLower⟩

/-- Python `c.get("name", "").lower()` (`Ranking.py` line 33): the tie-break
component of the sort key, read with an empty-string default and without
touching the stored `name` value. -/
def nameKey (c : Candidate) : String := pyLower (c.name.getD "")

/-- Lexicographic ≤ on character lists by code point: the comparison Python
performs on `str` values. -/
def lexLeB : List Char → List Char → Bool
  | [], _ => true
  | _ :: _, [] => false
  | a :: as, b :: bs =>
      if a < b then true
      else if b < a then false
      else lexLeB as bs

/-- Python `a <= b` on strings: code-point lexicographic order. -/
def strLe (a b : String) : Prop := lexLeB a.data b.data = true

instance : DecidableRel strLe := fun a b =>
  inferInstanceAs (Decidable (lexLeB a.data b.data = true))

theorem lexLeB_total : ∀ as bs : List Char,
    lexLeB as bs = true ∨ lexLeB bs as = true
  | [], _ => Or.inl rfl
  | _ :: _, [] => Or.inr rfl
  | a :: as, b :: bs => by
    rcases lt_trichotomy a b with h | h | h
    · left
      simp only [lexLeB]
      rw [if_pos h]
    · subst h
      rcases lexLeB_total as bs with ih | ih
      · left
        simp only [lexLeB]
        rw [if_neg (lt_irrefl a), if_neg (lt_irrefl a)]
        exact ih
      · right
        simp only [lexLeB]
        rw [if_neg (lt_irrefl a), if_neg (lt_irrefl a)]
        exact ih
    · right
      simp only [lexLeB]
      rw [if_pos h]

theorem lexLeB_trans : ∀ as bs cs : List Char,
    lexLeB as bs = true → lexLeB bs cs = true → lexLeB as cs = true
  | [], _, _, _, _ => rfl
  | _ :: _, [], _, h1, _ => by simp [lexLeB] at h1
  | _ :: _, _ :: _, [], _, h2 => by simp [lexLeB] at h2
  | a :: as, b :: bs, c :: cs, h1, h2 => by
    simp only [lexLeB] at h1 h2 ⊢
    rcases lt_trichotomy a b with hab | hab | hab
    · rcases lt_trichotomy b c with hbc | hbc | hbc
      · rw [if_pos (lt_trans hab hbc)]
      · subst hbc
        rw [if_pos hab]
      · rw [if_neg (asymm hbc), if_pos hbc] at h2
        exact absurd h2 (by simp)
    · subst hab
      rw [if_neg (lt_irrefl a), if_neg (lt_irrefl a)] at h1
      rcases lt_trichotomy a c with hac | hac | hac
      · rw [if_pos hac]
      · subst hac
        rw [if_neg (lt_irrefl a), if_neg (lt_irrefl a)] at h2 ⊢
        exact lexLeB_trans as bs cs h1 h2
      · rw [if_neg (asymm hac), if_pos hac] at h2
        exact absurd h2 (by simp)
    · rw [if_neg (asymm hab), if_pos hab] at h1
      exact absurd h1 (by simp)

/-- The total preorder induced by the Python sort key
`(-c.get("score", 0.0), c.get("name", "").lower())` under lexicographic
tuple comparison: `a` precedes `b` iff `a` has the strictly larger score,
or the scores are equal and `a`'s lower-cased name is ≤ `b`'s. -/
def keyLe (a b : Candidate) : Prop :=
  getScore b < getScore a ∨ (getScore a = getScore b ∧ strLe (nameKey a) (nameKey b))

instance : DecidableRel keyLe := fun a b =>
  inferInstanceAs
    (Decidable (getScore b < getScore a ∨
      (getScore a = getScore b ∧ strLe (nameKey a) (nameKey b))))

instance : IsTotal Candidate keyLe where
  total a b := by
    rcases lt_trichotomy (getScore a) (getScore b) with h | h | h
    · exact Or.inr (Or.inl h)
    · rcases lexLeB_total (nameKey a).data (nameKey b).data with hn | hn
      · exact Or.inl (Or.inr ⟨h, hn⟩)
      · exact Or.inr (Or.inr ⟨h.symm, hn⟩)
    · exact Or.inl (Or.inl h)

instance : IsTrans Candidate keyLe where
  trans a b c hab hbc := by
    rcases hab with h1 | ⟨e1, n1⟩
    · rcases hbc with h2 | ⟨e2, _⟩
      · exact Or.inl (lt_trans h2 h1)
      · exact Or.inl (e2 ▸ h1)
    · rcases hbc with h2 | ⟨e2, n2⟩
      · exact Or.inl (e1 ▸ h2)
      · exact Or.inr ⟨e1.trans e2, lexLeB_trans _ _ _ n1 n2⟩

/-- The in-place dict write `candidate["rank"] = rank`
(`Ranking.py` line 37). -/
def setRank (c : Candidate) (r : Nat) : Candidate := { c with rank := some r }

/-- A record with its `rank` key removed; used to compare records
"disregarding the rank field". -/
def eraseRank (c : Candidate) : Candidate := { c with rank := none }

/-- The loop `for rank, candidate in enumerate(ranked, start=1):
candidate["rank"] = rank` (`Ranking.py` lines 36-37). -/
def attachRanks (l : List Candidate) : List Candidate :=
  (List.enumFrom 1 l).map fun p => setRank p.2 p.1

/-- `Ranking.py` `get_domain_leaderboard`: stable-sort the candidates by the
key preorder `keyLe` (Python's `sorted` is a stable sort, and
`List.insertionSort` is the stable sort for this total preorder), then
attach 1-based ranks by enumeration position. -/
def get_domain_leaderboard (candidates : List Candidate) : List Candidate :=
  attachRanks (List.insertionSort keyLe candidates)

/-- The `score_distribution` accumulator dict of
`build_leaderboard_summary`. -/
structure ScoreDist where
  strong : Int
  medium : Int
  weak : Int
deriving DecidableEq, Repr

/-- The summary dict returned by `build_leaderboard_summary`. -/
structure Summary where
  total_candidates : Nat
  top_candidate : Option String
  average_score : Rat
  score_distribution : ScoreDist
deriving DecidableEq, Repr

/-- Python `m.get(key, 0)` on a metrics dict. -/
def mGet (m : List (String × Int)) (k : String) : Int := (m.lookup k).getD 0

/-- Python `round(x, 4)`: round to 4 decimal places (the spec accepts either
half-up or half-even at the 4th decimal; `round` on `Rat` is half-up). -/
def round4 (x : Rat) : Rat := (round (x * 10000) : Int) / 10000

/-- One iteration of the `for c in ranked_candidates` distribution loop
(`Ranking.py` lines 66-70). -/
def distStep (d : ScoreDist) (c : Candidate) : ScoreDist :=
  { strong := d.strong + mGet c.metrics "total_strong_skills"
    medium := d.medium + mGet c.metrics "total_medium_skills"
    weak := d.weak + mGet c.metrics "total_weak_skills" }

/-- `Ranking.py` `build_leaderboard_summary`: the empty batch short-circuits
to the zero-value summary before any division; otherwise average the scores
(4-decimal rounding), take the head record's name, and accumulate the three
tier counts. -/
def build_leaderboard_summary (ranked_candidates : List Candidate) : Summary :=
  match ranked_candidates with
  | [] =>
      { total_candidates := 0
        top_candidate := none
        average_score := 0
        score_distribution := { strong := 0, medium := 0, weak := 0 } }
  | c0 :: rest =>
      let all := c0 :: rest
      let scores := all.map getScore
      let avg := round4 (scores.sum / (scores.length : Rat))
      let dist := all.foldl distStep { strong := 0, medium := 0, weak := 0 }
      { total_candidates := all.length
        top_candidate := c0.name
        average_score := avg
        score_distribution := dist }

/-- All-defaults record: every optional key absent, both sub-dicts empty. -/
def blank : Candidate :=
  { name := none, score := none, weighted_sum := none, net_skills := none,
    metrics := [], skills := [], recruiter_note := none, error := none,
    rank := none }

/-- Scenario record: Bob with score 10.0. -/
def bobR : Candidate := { blank with name := some "Bob", score := some 10 }

/-- Scenario record: Alice with score 25.0. -/
def aliceR : Candidate := { blank with name := some "Alice", score := some 25 }

/-- Scenario record: Zed with score 25.0. -/
def zedR : Candidate := { blank with name := some "Zed", score := some 25 }

/-! ### The in-place mutation view of `get_domain_leaderboard`

`sorted` builds a fresh list, but the rank loop mutates the candidate dicts
it shares with the caller's list.  To model the caller's list after the
call, the stable sort is tracked on `(original index, record)` pairs: the
pair order is exactly the order in which Python's stable sort arranges the
(distinct) dict objects, so the position of index `j` in the sorted pass is
the rank written into the dict stored at position `j` of the input list. -/

/-- `keyLe` on `(original index, record)` pairs, ignoring the index: the
comparison used when the stable sort is viewed as acting on the dict
objects of `enumerate(candidates)`. -/
def keyLeIdx (p q : Nat × Candidate) : Prop := keyLe p.2 q.2

instance : DecidableRel keyLeIdx := fun p q =>
  inferInstanceAs (Decidable (keyLe p.2 q.2))

/-- The 1-based rank written into the dict stored at original index `j`. -/
def rankOfIdx (cs : List Candidate) (j : Nat) : Nat :=
  ((List.insertionSort keyLeIdx cs.enum).map Prod.fst).indexOf j + 1

/-- The caller's argument list as observed after `get_domain_leaderboard`
returns: the list object itself is untouched (same elements at the same
positions), but each element dict has been mutated in place with the rank
it received in the sorted output. -/
def get_domain_leaderboard_input_after (cs : List Candidate) : List Candidate :=
  cs.enum.map fun p => setRank p.2 (rankOfIdx cs p.1)

/-! ### `app.py`: the per-resume pipeline and the `/api/leaderboard` route -/

/-- The dict returned by the external `calculate_skill_strength`
collaborator (keys read on `app.py` lines 64 and 71-72). -/
structure Scoring where
  skill_strength_score : Rat
  weighted_sum : Rat
  net_skills : Int
deriving Repr

/-- The external collaborators imported by `app.py` (`pdf_extract`,
`list_to_json`, `extract_skill_from_resume`, `generate_analysis_metrics`,
`calculate_skill_strength`, `get_recruiter_note`).  Their code is outside
this repository's core, so they are black boxes: any of them may raise,
modelled as `Except String` with the exception message `str(exc)` as the
error.  The skill taxonomy `Skilldomain.SKILL_DICT` and the module-level
`GEMINI_KEY` are process-wide constants and are absorbed into the closures.
`pdf_extract` returning an empty string models both the empty-text and the
`None` result (both are falsy in the `if not raw_text` check). -/
structure Collaborators (Blob Doc : Type) where
  pdf_extract : Blob → Except String String
  list_to_json : String → Except String Doc
  extract_skill_from_resume : Doc → Except String (List (String × List String))
  generate_analysis_metrics :
    List (String × List String) → Except String (List (String × Int))
  calculate_skill_strength : List (String × Int) → Except String Scoring
  get_recruiter_note :
    String → String → List (String × List String) → Rat → Except String String

/-- The `try` block of `_process_single_resume` (`app.py` lines 51-76): each
collaborator call propagates its exception; an empty extraction raises
`ValueError("Empty PDF — could not extract text.")`; on success the full
candidate dict is built (no `error` key). -/
def processBody {Blob Doc : Type} (env : Collaborators Blob Doc) (file : Blob)
    (candidate_name domain : String) : Except String Candidate :=
  match env.pdf_extract file with
  | .error e => .error e
  | .ok raw_text =>
    if raw_text = "" then .error "Empty PDF — could not extract text."
    else
      match env.list_to_json raw_text with
      | .error e => .error e
      | .ok structured =>
        match env.extract_skill_from_resume structured with
        | .error e => .error e
        | .ok skills =>
          match env.generate_analysis_metrics skills with
          | .error e => .error e
          | .ok metrics =>
            match env.calculate_skill_strength metrics with
            | .error e => .error e
            | .ok scoring =>
              match env.get_recruiter_note candidate_name domain skills
                  scoring.skill_strength_score with
              | .error e => .error e
              | .ok note =>
                .ok { name := some candidate_name
                      score := some scoring.skill_strength_score
                      weighted_sum := some scoring.weighted_sum
                      net_skills := some scoring.net_skills
                      metrics := metrics
                      skills := skills
                      recruiter_note := some note
                      error := none
                      rank := none }

/-- The `except` branch of `_process_single_resume` (`app.py` lines 78-88):
the degraded record built from the caught exception message. -/
def degradedRecord (candidate_name exc : String) : Candidate :=
  { name := some candidate_name
    score := some 0
    weighted_sum := some 0
    net_skills := some 0
    metrics := []
    skills := []
    recruiter_note := some ("Processing failed: " ++ exc)
    error := some exc
    rank := none }

/-- `app.py` `_process_single_resume`: run the pipeline, catching every
exception into a degraded record — the function itself never raises. -/
def process_single_resume {Blob Doc : Type} (env : Collaborators Blob Doc)
    (file : Blob) (candidate_name domain : String) : Candidate :=
  match processBody env file candidate_name domain with
  | .ok rec => rec
  | .error exc => degradedRecord candidate_name exc

/-- One entry of `request.files.getlist("resumes")`: a Werkzeug
`FileStorage`, of which the route reads only the filename and the blob. -/
structure UploadedFile (Blob : Type) where
  filename : String
  blob : Blob

/-- The request data consumed by the `/api/leaderboard` route: the uploaded
files, the optional (possibly partial) parallel `names` list, and the raw
optional `domain` form field. -/
structure LeaderboardRequest (Blob : Type) where
  files : List (UploadedFile Blob)
  names : List String
  domain : Option String

/-- The two response shapes of the `/api/leaderboard` route: the 400
input-validation rejection `jsonify({"error": ...})`, or the success payload
with the ranked leaderboard and its summary. -/
inductive LeaderboardResponse where
  | badRequest (error : String)
  | success (domain : String) (total_candidates : Nat) (summary : Summary)
      (leaderboard : List Candidate)
deriving Repr

/-- The validity filter `[f for f in files if f and f.filename != ""]`
(`app.py` line 107).  A Werkzeug `FileStorage` is truthy exactly when its
filename is non-empty, so the conjunction reduces to a non-empty
filename. -/
def fileOk {Blob : Type} (f : UploadedFile Blob) : Bool := f.filename != ""

/-- The `valid_files` list of the route. -/
def validFiles {Blob : Type} (req : LeaderboardRequest Blob) :
    List (UploadedFile Blob) :=
  req.files.filter fileOk

/-- Python `str.strip()`: drop whitespace from both ends (ASCII whitespace,
which is what the form fields and names of this app contain). -/
def pyStrip (s : String) : String :=
  ⟨((s.data.dropWhile Char.isWhitespace).reverse.dropWhile
      Char.isWhitespace).reverse⟩

/-- `request.form.get("domain", "Software Engineering").strip()`
(`app.py` line 104). -/
def reqDomain {Blob : Type} (req : LeaderboardRequest Blob) : String :=
  pyStrip (req.domain.getD "Software Engineering")

/-- Python `str.rfind(ch)` on a character list: the last index holding `ch`,
or `-1` when absent. -/
def rfindIdx (ch : Char) (l : List Char) : Int :=
  l.enum.foldl (fun acc p => if p.2 = ch then (p.1 : Int) else acc) (-1)

/-- The root component of `os.path.splitext` (posixpath): cut at the last
dot provided it lies strictly after the last path separator and at least
one character of the base name before it is not a dot (leading dots of the
base name do not start an extension). -/
def splitextRootL (p : List Char) : List Char :=
  let sepIdx := rfindIdx '/' p
  let dotIdx := rfindIdx '.' p
  let start := (sepIdx + 1).toNat
  if sepIdx < dotIdx ∧
      ((p.drop start).take (dotIdx.toNat - start)).any (fun c => c != '.') = true
  then p.take dotIdx.toNat
  else p

/-- `os.path.splitext(filename)[0]` (`app.py` line 118). -/
def splitextRoot (s : String) : String := ⟨splitextRootL s.data⟩

/-- Python single-character `str.replace(old, new)`: with a one-character
pattern this is the characterwise map. -/
def pyReplace (old new : Char) (s : String) : String :=
  ⟨s.data.map fun c => if c = old then new else c⟩

/-- One character of Python `str.title()`: an alphabetic character is
upper-cased after a non-alphabetic (uncased) character and lower-cased
after an alphabetic one; other characters pass through and reset the
word boundary. -/
def titleStep (st : List Char × Bool) (c : Char) : List Char × Bool :=
  if c.isAlpha then
    (st.1 ++ [if st.2 then c.toLower else c.toUpper], true)
  else (st.1 ++ [c], false)

/-- Python `str.title()` (ASCII case mapping, as for `pyLower`). -/
def pyTitle (s : String) : String := ⟨(s.data.foldl titleStep ([], false)).1⟩

/-- The name derivation of the route loop (`app.py` lines 115-119): use
`names[i].strip()` when index `i` is in range and the stripped value is
non-empty (truthy), else fall back to the filename stem with `_` and `-`
replaced by spaces and the result title-cased. -/
def deriveName (names : List String) (i : Nat) (filename : String) : String :=
  if i < names.length ∧ pyStrip (names.getD i "") ≠ "" then
    pyStrip (names.getD i "")
  else pyTitle (pyReplace '-' ' ' (pyReplace '_' ' ' (splitextRoot filename)))

/-- The `candidates` list built by the route loop (`app.py` lines 112-121):
one `_process_single_resume` call per valid file, with the derived name and
the shared domain. -/
def endpointCandidates {Blob Doc : Type} (env : Collaborators Blob Doc)
    (req : LeaderboardRequest Blob) : List Candidate :=
  (validFiles req).enum.map fun p =>
    process_single_resume env p.2.blob (deriveName req.names p.1 p.2.filename)
      (reqDomain req)

/-- The `/api/leaderboard` route (`app.py` lines 100-133): reject the batch
with a 400 when no valid file is present, otherwise process every valid
file, rank, summarise and answer with the success payload. -/
def leaderboard_route {Blob Doc : Type} (env : Collaborators Blob Doc)
    (req : LeaderboardRequest Blob) : LeaderboardResponse :=
  if (validFiles req).isEmpty then .badRequest "No PDF files provided."
  else
    let ranked := get_domain_leaderboard (endpointCandidates env req)
    .success (reqDomain req) ranked.length (build_leaderboard_summary ranked)
      ranked

/-! ### Helper lemmas about rank attachment and enumeration -/

theorem pairwise_enumFrom_of_pairwise {α : Type} {R : α → α → Prop} :
    ∀ (n : Nat) (l : List α), l.Pairwise R →
      (List.enumFrom n l).Pairwise fun p q => R p.2 q.2
  | _, [], _ => List.Pairwise.nil
  | n, a :: l, h => by
    rw [List.enumFrom_cons]
    rcases List.pairwise_cons.mp h with ⟨ha, hl⟩
    exact List.Pairwise.cons
      (fun q hq => ha q.2 (List.snd_mem_of_mem_enumFrom hq))
      (pairwise_enumFrom_of_pairwise (n + 1) l hl)

theorem map_snd_enumFrom_map {α β : Type} (g : α → β) (n : Nat) (l : List α) :
    (List.enumFrom n l).map (fun p => g p.2) = l.map g := by
  rw [show (fun p : Nat × α => g p.2) = g ∘ Prod.snd from rfl,
    ← List.map_map, List.enumFrom_map_snd]

theorem pairwise_attachRanks {l : List Candidate} (h : l.Pairwise keyLe) :
    (attachRanks l).Pairwise keyLe := by
  unfold attachRanks
  rw [List.pairwise_map]
  exact pairwise_enumFrom_of_pairwise 1 l h

theorem attachRanks_map_proj {β : Type} (g : Candidate → β)
    (hg : ∀ c i, g (setRank c i) = g c) (l : List Candidate) :
    (attachRanks l).map g = l.map g := by
  unfold attachRanks
  rw [List.map_map]
  have h1 : List.map (g ∘ fun p : Nat × Candidate => setRank p.2 p.1)
        (List.enumFrom 1 l)
      = List.map (fun p : Nat × Candidate => g p.2) (List.enumFrom 1 l) :=
    List.map_congr_left fun p _ => hg p.2 p.1
  rw [h1, map_snd_enumFrom_map]

theorem map_eraseRank_attachRanks (l : List Candidate) :
    (attachRanks l).map eraseRank = l.map eraseRank :=
  attachRanks_map_proj eraseRank (fun _ _ => rfl) l

theorem sorted_get_domain_leaderboard (cs : List Candidate) :
    (get_domain_leaderboard cs).Pairwise keyLe :=
  pairwise_attachRanks (List.sorted_insertionSort keyLe cs)

theorem map_eraseRank_gdl_perm (cs : List Candidate) :
    ((get_domain_leaderboard cs).map eraseRank).Perm (cs.map eraseRank) := by
  unfold get_domain_leaderboard
  rw [map_eraseRank_attachRanks]
  exact (List.perm_insertionSort keyLe cs).map eraseRank

theorem map_name_gdl_perm (cs : List Candidate) :
    ((get_domain_leaderboard cs).map fun c => c.name).Perm
      (cs.map fun c => c.name) := by
  unfold get_domain_leaderboard
  rw [attachRanks_map_proj (fun c => c.name) (fun _ _ => rfl)]
  exact (List.perm_insertionSort keyLe cs).map fun c => c.name

/-! ### Claims about `get_domain_leaderboard` and `build_leaderboard_summary` -/

/-- C1: `get_domain_leaderboard` returns the records ordered primarily by
descending score and, among equal scores, by ascending case-insensitive
name (missing score read as `0.0`, missing name read as `""`, the stored
names untouched); on scores `[10.0, 25.0, 25.0]` with names
`["Bob", "Alice", "Zed"]` the output order is Alice, Zed, Bob. -/
theorem gdl_order_spec :
    (∀ cs : List Candidate, (get_domain_leaderboard cs).Pairwise keyLe) ∧
    (∀ cs : List Candidate,
      ((get_domain_leaderboard cs).map fun c => c.name).Perm
        (cs.map fun c => c.name)) ∧
    (get_domain_leaderboard [bobR, aliceR, zedR]).map (fun c => c.name)
      = [some "Alice", some "Zed", some "Bob"] :=
  ⟨sorted_get_domain_leaderboard, map_name_gdl_perm, by decide⟩

/-- C2: after `get_domain_leaderboard`, the `rank` values of the returned
records are exactly `1, 2, …, N` in positional order — unique and
contiguous, with tied scores receiving distinct consecutive ranks. -/
theorem gdl_ranks_spec :
    ∀ cs : List Candidate,
      (get_domain_leaderboard cs).map (fun c => c.rank)
        = (List.range cs.length).map fun i => some (i + 1) := by
  intro cs
  unfold get_domain_leaderboard attachRanks
  rw [List.map_map]
  have h1 : List.map ((fun c => c.rank) ∘ fun p : Nat × Candidate => setRank p.2 p.1)
        (List.enumFrom 1 (List.insertionSort keyLe cs))
      = List.map (fun p : Nat × Candidate => some p.1)
        (List.enumFrom 1 (List.insertionSort keyLe cs)) :=
    List.map_congr_left fun p _ => rfl
  have h2 : List.map (fun p : Nat × Candidate => some p.1)
        (List.enumFrom 1 (List.insertionSort keyLe cs))
      = (List.map Prod.fst
          (List.enumFrom 1 (List.insertionSort keyLe cs))).map some := by
    rw [List.map_map]
    rfl
  rw [h1, h2, List.enumFrom_map_fst, List.length_insertionSort,
    List.range'_eq_map_range, List.map_map]
  exact List.map_congr_left fun i _ => by simp [Nat.add_comm]

/-- C3: the output of `get_domain_leaderboard` contains exactly the input
records — same length, the multiset of names preserved, no record dropped
or duplicated — and each returned record differs from an input record only
in its `rank` key. -/
theorem gdl_frame_spec :
    ∀ cs : List Candidate,
      (get_domain_leaderboard cs).length = cs.length ∧
      ((get_domain_leaderboard cs).map eraseRank).Perm (cs.map eraseRank) ∧
      (((get_domain_leaderboard cs).map fun c => c.name).Perm
        (cs.map fun c => c.name)) ∧
      ∀ c' ∈ get_domain_leaderboard cs, ∃ c ∈ cs, eraseRank c' = eraseRank c := by
  intro cs
  refine ⟨?_, map_eraseRank_gdl_perm cs, map_name_gdl_perm cs, ?_⟩
  · simp [get_domain_leaderboard, attachRanks]
  · intro c' hc'
    have h1 : eraseRank c' ∈ (get_domain_leaderboard cs).map eraseRank :=
      List.mem_map_of_mem eraseRank hc'
    have h2 : eraseRank c' ∈ cs.map eraseRank :=
      ((map_eraseRank_gdl_perm cs).mem_iff).mp h1
    rcases List.mem_map.mp h2 with ⟨c, hc, he⟩
    exact ⟨c, hc, he.symm⟩

/-- Witness for C3 at a concrete batch. -/
theorem gdl_frame_spec_witness :
    (get_domain_leaderboard [bobR]).length = [bobR].length ∧
    ∃ c ∈ [bobR],
      eraseRank ((get_domain_leaderboard [bobR]).getD 0 blank) = eraseRank c :=
  ⟨(gdl_frame_spec [bobR]).1,
    (gdl_frame_spec [bobR]).2.2.2 ((get_domain_leaderboard [bobR]).getD 0 blank)
      (by decide)⟩

/-- C6: the empty batch yields the zero-value summary (checked before any
division) and an empty leaderboard, without error. -/
theorem empty_batch_spec :
    build_leaderboard_summary []
        = { total_candidates := 0, top_candidate := none, average_score := 0,
            score_distribution := { strong := 0, medium := 0, weak := 0 } } ∧
      get_domain_leaderboard [] = [] :=
  ⟨rfl, rfl⟩

/-- C7: ranking is idempotent up to the `rank` field: ranking an already
ranked list returns the records in the identical order. -/
theorem gdl_idempotent_spec :
    ∀ cs : List Candidate,
      (get_domain_leaderboard (get_domain_leaderboard cs)).map eraseRank
        = (get_domain_leaderboard cs).map eraseRank := by
  intro cs
  have hs : (attachRanks (List.insertionSort keyLe cs)).Pairwise keyLe :=
    pairwise_attachRanks (List.sorted_insertionSort keyLe cs)
  show (attachRanks (List.insertionSort keyLe
      (attachRanks (List.insertionSort keyLe cs)))).map eraseRank
    = (attachRanks (List.insertionSort keyLe cs)).map eraseRank
  rw [List.Sorted.insertionSort_eq hs, map_eraseRank_attachRanks]

/-- C10: `get_domain_leaderboard` returns a freshly built list: afterwards
the caller's input list still holds its elements in the original pre-sort
order, each element dict mutated only with a `rank` key; the sorted order
shows only in the returned list (concretely: an input ordered Bob, Zed is
still Bob, Zed in place while the returned list is Zed, Bob). -/
theorem gdl_input_after_spec :
    (∀ cs : List Candidate,
      (get_domain_leaderboard_input_after cs).map eraseRank
        = cs.map eraseRank) ∧
    (get_domain_leaderboard_input_after [bobR, zedR]).map (fun c => c.name)
      = [some "Bob", some "Zed"] ∧
    (get_domain_leaderboard [bobR, zedR]).map (fun c => c.name)
      = [some "Zed", some "Bob"] := by
  refine ⟨?_, by decide, by decide⟩
  intro cs
  unfold get_domain_leaderboard_input_after
  rw [List.map_map]
  have h1 : List.map
        (eraseRank ∘ fun p : Nat × Candidate => setRank p.2 (rankOfIdx cs p.1))
        cs.enum
      = List.map (fun p : Nat × Candidate => eraseRank p.2) cs.enum :=
    List.map_congr_left fun p _ => rfl
  rw [h1]
  exact map_snd_enumFrom_map eraseRank 0 cs

/-! ### The summary aggregation claim -/

theorem foldl_distStep : ∀ (l : List Candidate) (d : ScoreDist),
    l.foldl distStep d
      = { strong := d.strong
            + (l.map fun c => mGet c.metrics "total_strong_skills").sum
          medium := d.medium
            + (l.map fun c => mGet c.metrics "total_medium_skills").sum
          weak := d.weak
            + (l.map fun c => mGet c.metrics "total_weak_skills").sum }
  | [], d => by simp
  | c :: l, d => by
    rw [List.foldl_cons, foldl_distStep l (distStep d c)]
    simp [distStep, add_assoc]

/-- C5: on a non-empty ranked list, `build_leaderboard_summary` reports the
list length, the name of the first (rank-1) record without re-sorting, the
4-decimal-rounded mean of the scores, and tier totals summed over all
candidates with missing metric keys counted as 0. -/
theorem summary_spec :
    ∀ (c0 : Candidate) (rest : List Candidate),
      (build_leaderboard_summary (c0 :: rest)).total_candidates
          = (c0 :: rest).length ∧
      (build_leaderboard_summary (c0 :: rest)).top_candidate = c0.name ∧
      (build_leaderboard_summary (c0 :: rest)).average_score
          = round4 (((c0 :: rest).map getScore).sum
              / ((c0 :: rest).length : Rat)) ∧
      (build_leaderboard_summary (c0 :: rest)).score_distribution
          = { strong :=
                ((c0 :: rest).map fun c => mGet c.metrics "total_strong_skills").sum
              medium :=
                ((c0 :: rest).map fun c => mGet c.metrics "total_medium_skills").sum
              weak :=
                ((c0 :: rest).map fun c => mGet c.metrics "total_weak_skills").sum } := by
  intro c0 rest
  refine ⟨rfl, rfl, ?_, ?_⟩
  · show round4 (((c0 :: rest).map getScore).sum
        / (((c0 :: rest).map getScore).length : Rat)) = _
    rw [List.length_map]
  · show (c0 :: rest).foldl distStep
        { strong := 0, medium := 0, weak := 0 } = _
    rw [foldl_distStep]
    simp

/-! ### The per-resume pipeline claim -/

theorem processBody_ok_shape {Blob Doc : Type} (env : Collaborators Blob Doc)
    (file : Blob) (nm dom : String) {r : Candidate}
    (h : processBody env file nm dom = .ok r) :
    r.name = some nm ∧ r.error = none := by
  unfold processBody at h
  repeat' split at h
  all_goals first
    | exact Except.noConfusion h
    | (cases h; exact ⟨rfl, rfl⟩)

/-- C4: `_process_single_resume` never raises: a successful pipeline run is
returned as-is (and then carries no `error` key), any failure — in
particular an empty extraction — produces the degraded record with score
`0.0`, zeroed tallies, empty `metrics`/`skills`, a recruiter note starting
with `"Processing failed"`, and the failure message in `error`; the `error`
key is present exactly when processing failed. -/
theorem process_single_resume_spec :
    ∀ {Blob Doc : Type} (env : Collaborators Blob Doc) (file : Blob)
      (nm dom : String),
      (∀ r, processBody env file nm dom = .ok r →
        process_single_resume env file nm dom = r ∧ r.error = none) ∧
      (∀ exc, processBody env file nm dom = .error exc →
        (process_single_resume env file nm dom).score = some 0 ∧
        (process_single_resume env file nm dom).weighted_sum = some 0 ∧
        (process_single_resume env file nm dom).net_skills = some 0 ∧
        (process_single_resume env file nm dom).metrics = [] ∧
        (process_single_resume env file nm dom).skills = [] ∧
        (process_single_resume env file nm dom).error = some exc ∧
        ∃ tail, (process_single_resume env file nm dom).recruiter_note
          = some ("Processing failed" ++ tail)) ∧
      (env.pdf_extract file = .ok "" →
        processBody env file nm dom
          = .error "Empty PDF — could not extract text.") := by
  intro Blob Doc env file nm dom
  refine ⟨?_, ?_, ?_⟩
  · intro r h
    unfold process_single_resume
    rw [h]
    exact ⟨rfl, (processBody_ok_shape env file nm dom h).2⟩
  · intro exc h
    unfold process_single_resume
    rw [h]
    refine ⟨rfl, rfl, rfl, rfl, rfl, rfl, ⟨": " ++ exc, ?_⟩⟩
    show some ("Processing failed: " ++ exc)
      = some ("Processing failed" ++ (": " ++ exc))
    rw [← String.append_assoc]
    rfl
  · intro h
    unfold processBody
    rw [h]
    rfl

/-- A collaborator environment whose extraction yields empty text. -/
def envW : Collaborators Unit Unit :=
  { pdf_extract := fun _ => .ok ""
    list_to_json := fun _ => .ok ()
    extract_skill_from_resume := fun _ => .ok []
    generate_analysis_metrics := fun _ => .ok []
    calculate_skill_strength := fun _ =>
      .ok { skill_strength_score := 0, weighted_sum := 0, net_skills := 0 }
    get_recruiter_note := fun _ _ _ _ => .ok "note" }

/-- Witness for C4: under an environment whose PDF extraction yields empty
text, the processed record is degraded with the empty-PDF message. -/
theorem process_single_resume_spec_witness :
    (process_single_resume envW () "Ann" "Data").error
        = some "Empty PDF — could not extract text." ∧
      (process_single_resume envW () "Ann" "Data").score = some 0 := by
  have h := process_single_resume_spec envW () "Ann" "Data"
  have h3 := h.2.2 rfl
  have h2 := h.2.1 "Empty PDF — could not extract text." h3
  exact ⟨h2.2.2.2.2.2.1, h2.1⟩

/-! ### The route-level claims -/

/-- C8: a batch whose valid-file list is empty is rejected as a whole with
the input-validation error before any per-candidate processing: the
response is the 400 rejection and no candidate record is built. -/
theorem leaderboard_reject_spec :
    ∀ {Blob Doc : Type} (env : Collaborators Blob Doc)
      (req : LeaderboardRequest Blob),
      validFiles req = [] →
      leaderboard_route env req = .badRequest "No PDF files provided." ∧
      endpointCandidates env req = [] := by
  intro Blob Doc env req h
  constructor
  · unfold leaderboard_route
    rw [h]
    rfl
  · unfold endpointCandidates
    rw [h]
    rfl

/-- A request carrying one file with an empty filename: no valid file. -/
def reqEmpty : LeaderboardRequest Unit :=
  { files := [{ filename := "", blob := () }], names := [], domain := none }

/-- Witness for C8 at a concrete request with no valid file. -/
theorem leaderboard_reject_spec_witness :
    leaderboard_route envW reqEmpty = .badRequest "No PDF files provided." ∧
    endpointCandidates envW reqEmpty = [] :=
  leaderboard_reject_spec envW reqEmpty rfl

/-! ### The name-derivation claim -/

theorem process_single_resume_name {Blob Doc : Type}
    (env : Collaborators Blob Doc) (file : Blob) (nm dom : String) :
    (process_single_resume env file nm dom).name = some nm := by
  unfold process_single_resume
  cases h : processBody env file nm dom with
  | ok r => exact (processBody_ok_shape env file nm dom h).1
  | error e => rfl

theorem pyReplace_length (old new : Char) (s : String) :
    (pyReplace old new s).data.length = s.data.length := by
  simp [pyReplace]

theorem titleStep_length (st : List Char × Bool) (c : Char) :
    (titleStep st c).1.length = st.1.length + 1 := by
  unfold titleStep
  by_cases h : c.isAlpha
  · rw [if_pos h]; simp
  · rw [if_neg h]; simp

theorem foldl_titleStep_length : ∀ (l : List Char) (st : List Char × Bool),
    ((l.foldl titleStep st).1).length = st.1.length + l.length
  | [], st => by simp
  | c :: l, st => by
    rw [List.foldl_cons, foldl_titleStep_length l (titleStep st c),
      titleStep_length, List.length_cons]
    omega

theorem pyTitle_length (s : String) :
    (pyTitle s).data.length = s.data.length := by
  show ((s.data.foldl titleStep ([], false)).1).length = s.data.length
  rw [foldl_titleStep_length]
  simp

theorem splitextRootL_ne_nil {p : List Char} (hp : p ≠ []) :
    splitextRootL p ≠ [] := by
  unfold splitextRootL
  dsimp only
  split
  next h =>
    rcases h with ⟨-, hany⟩
    rcases List.any_eq_true.mp hany with ⟨x, hx, -⟩
    intro hnil
    rw [List.take_eq_nil_iff] at hnil
    rcases hnil with h0 | h0
    · have h1 : (rfindIdx '.' p).toNat - ((rfindIdx '/' p) + 1).toNat = 0 := by
        omega
      rw [h1] at hx
      simp at hx
    · exact hp h0
  next => exact hp

theorem splitextRoot_ne_empty {s : String} (hs : s ≠ "") :
    splitextRoot s ≠ "" := by
  intro h
  have hd : splitextRootL s.data = [] := congrArg String.data h
  have hsd : s.data ≠ [] := fun hn => hs (String.ext hn)
  exact splitextRootL_ne_nil hsd hd

theorem deriveName_ne_empty (names : List String) (i : Nat) {filename : String}
    (hf : filename ≠ "") : deriveName names i filename ≠ "" := by
  unfold deriveName
  split
  next h => exact h.2
  next =>
    intro hcontra
    have h1 : (pyTitle (pyReplace '-' ' '
          (pyReplace '_' ' ' (splitextRoot filename)))).data.length
        = (splitextRoot filename).data.length := by
      rw [pyTitle_length, pyReplace_length, pyReplace_length]
    have h2 : (splitextRoot filename).data ≠ [] := by
      intro hn
      exact splitextRoot_ne_empty hf (String.ext hn)
    rw [hcontra] at h1
    cases hq : (splitextRoot filename).data with
    | nil => exact h2 hq
    | cons a l => rw [hq] at h1; simp at h1

/-- C9: every candidate built by the leaderboard route has a non-empty
name; when no usable name was provided for position `i`, the name is the
file's stem with `_` and `-` replaced by spaces, title-cased. -/
theorem candidate_name_spec :
    (∀ (Blob Doc : Type) (env : Collaborators Blob Doc)
        (req : LeaderboardRequest Blob),
      ∀ c ∈ endpointCandidates env req, ∃ n, c.name = some n ∧ n ≠ "") ∧
    (∀ (names : List String) (i : Nat) (filename : String),
      ¬ (i < names.length ∧ pyStrip (names.getD i "") ≠ "") →
      deriveName names i filename
        = pyTitle (pyReplace '-' ' '
            (pyReplace '_' ' ' (splitextRoot filename)))) := by
  constructor
  · intro Blob Doc env req c hc
    unfold endpointCandidates at hc
    rcases List.mem_map.mp hc with ⟨p, hp, hpc⟩
    have hmem : p.2 ∈ validFiles req := List.snd_mem_of_mem_enumFrom hp
    have hok : fileOk p.2 = true := by
      unfold validFiles at hmem
      exact (List.mem_filter.mp hmem).2
    have hfn : p.2.filename ≠ "" := by
      simpa [fileOk] using hok
    refine ⟨deriveName req.names p.1 p.2.filename, ?_,
      deriveName_ne_empty req.names p.1 hfn⟩
    rw [← hpc]
    exact process_single_resume_name env p.2.blob _ (reqDomain req)
  · intro names i filename h
    unfold deriveName
    rw [if_neg h]

/-- A request with one valid file and no provided names. -/
def reqW : LeaderboardRequest Unit :=
  { files := [{ filename := "john_doe.pdf", blob := () }], names := [],
    domain := none }

/-- Witness for C9: the single candidate of a concrete request has a
non-empty name, and the fallback derivation applies when no name is
given. -/
theorem candidate_name_spec_witness :
    (∃ n, ((endpointCandidates envW reqW).getD 0 blank).name
        = some n ∧ n ≠ "") ∧
    deriveName [] 0 "john_doe.pdf"
      = pyTitle (pyReplace '-' ' '
          (pyReplace '_' ' ' (splitextRoot "john_doe.pdf"))) :=
  ⟨candidate_name_spec.1 Unit Unit envW reqW _ (by decide),
    candidate_name_spec.2 [] 0 "john_doe.pdf" (by decide)⟩

end ResumeRank
